import Mathlib

/-!
Verification of the position-aware futures order execution engine
(`trading.py`: contract directory, position reader, order sizer,
order submitter, status reconciler).

The brokerage session (`api`) is modelled as an explicit environment
`Env` carrying the tradable contract list, the result of
`api.list_positions`, and the behaviour of `api.place_order`.
Python exceptions become explicit `Except` results: `PyErr` models the
exceptions the session can raise; `TradingErr` models what escapes the
trading functions (an `OrderError`, or an exception no handler caught).
Python floats are modelled as rationals.
-/

namespace Shioaji

/-- A futures contract descriptor (fields used by `trading.py`). -/
structure Contract where
  symbol : String
  code : String
  category : String
  delivery_month : String
deriving DecidableEq, Repr

/-- The `sj.constant.Action` enum. -/
inductive Action where
  | Buy
  | Sell
deriving DecidableEq, Repr

/-- The raw `direction` field of a `FuturePosition` as returned by the
exchange: it compares equal to `Action.Buy`, to `Action.Sell`, or is some
other (malformed) value carried as a raw string. -/
inductive PosDirection where
  | Buy
  | Sell
  | Other (raw : String)
deriving DecidableEq, Repr

/-- One entry of `api.list_positions(api.futopt_account)`. -/
structure Position where
  code : String
  direction : PosDirection
  quantity : Int
deriving DecidableEq, Repr

/-- Exceptions raisable by the session / library, as caught in
`trading.py` (`ValueError`, `AccountNotSignError`, `AccountNotProvideError`,
`TargetContractNotExistError`, `TimeoutError`, and any other `Exception`). -/
inductive PyErr where
  | valueError (m : String)
  | accountNotSign (m : String)
  | accountNotProvide (m : String)
  | targetContractNotExist (m : String)
  | timeoutError (m : String)
  | otherExc (m : String)
deriving DecidableEq, Repr

deriving instance DecidableEq for Except

/-- Models `str(e)`: the message carried by an exception. -/
def PyErr.msg : PyErr → String
  | .valueError m => m
  | .accountNotSign m => m
  | .accountNotProvide m => m
  | .targetContractNotExist m => m
  | .timeoutError m => m
  | .otherExc m => m

/-- What escapes `place_entry_order` / `place_exit_order`: either an
`OrderError(msg)` raised by one of the handlers, or an exception that no
`except` clause of the function catches (propagates unwrapped). -/
inductive TradingErr where
  | orderError (m : String)
  | uncaught (e : PyErr)
deriving DecidableEq, Repr

/-- An order as built by `api.Order(...)` in `trading.py` (the constant
`price_type=MKT`, `order_type=IOC`, `octype=Auto` arguments included). -/
structure Order where
  action : Action
  price : ℚ
  quantity : Int
  price_type : String
  order_type : String
  octype : String
deriving DecidableEq, Repr

/-- Builds `api.Order(action=a, price=0.0, quantity=q, price_type=MKT,
order_type=IOC, octype=Auto, account=api.futopt_account)`. -/
def mkOrder (action : Action) (quantity : Int) : Order :=
  { action := action
    price := 0
    quantity := quantity
    price_type := "MKT"
    order_type := "IOC"
    octype := "Auto" }

/-- The brokerage session as seen by `trading.py`, parameterised by the
type `τ` of the trade handle `api.place_order` returns on success:
`contracts` is `_get_futures_contracts(api)`, `list_positions` the result
(or exception) of `api.list_positions(api.futopt_account)`, and
`place_order` the behaviour of `api.place_order`. -/
structure Env (τ : Type) where
  contracts : List Contract
  list_positions : Except PyErr (List Position)
  place_order : Contract → Order → Except PyErr τ

/-- Embeds `get_contract_from_symbol` (trading.py:140-145): linear scan of the
tradable set for an exact symbol match; raises `ValueError` if absent. -/
def get_contract_from_symbol (contracts : List Contract) (symbol : String) :
    Except PyErr Contract :=
  match contracts with
  | [] => .error (.valueError
      ("Contract " ++ symbol ++ " not found in supported futures"))
  | c :: rest =>
      if c.symbol = symbol then .ok c
      else get_contract_from_symbol rest symbol

/-- The loop body of `resolve_actual_contract_code` (trading.py:179-184):
first contract with matching `category` and `delivery_month` whose
`code != symbol`. -/
def find_actual_contract (contracts : List Contract) (contract : Contract) :
    Option Contract :=
  match contracts with
  | [] => none
  | c :: rest =>
      if c.category = contract.category ∧
         c.delivery_month = contract.delivery_month ∧
         c.code ≠ c.symbol then some c
      else find_actual_contract rest contract

/-- Embeds `resolve_actual_contract_code` (trading.py:156-188). -/
def resolve_actual_contract_code (contracts : List Contract)
    (contract : Contract) : String :=
  if contract.code ≠ contract.symbol then contract.code
  else
    match find_actual_contract contracts contract with
    | some c => c.code
    | none => contract.code

/-- The position-scanning loop of `get_current_position`
(trading.py:195-208): first entry whose `code` equals the resolved code
decides the result; a malformed direction raises `ValueError`. -/
def findPositionQty (positions : List Position) (actual_code : String) :
    Except PyErr (Option Int) :=
  match positions with
  | [] => .ok none
  | p :: rest =>
      if actual_code = p.code then
        match p.direction with
        | .Buy => .ok (some p.quantity)
        | .Sell => .ok (some (-p.quantity))
        | .Other raw => .error (.valueError
            ("Position " ++ p.code ++ " has invalid direction: " ++ raw))
      else findPositionQty rest actual_code

/-- Embeds `get_current_position` (trading.py:191-208): resolve the contract to
its actual code, then scan the live position list. -/
def get_current_position {τ : Type} (env : Env τ) (contract : Contract) :
    Except PyErr (Option Int) :=
  let actual_code := resolve_actual_contract_code env.contracts contract
  match env.list_positions with
  | .error e => .error e
  | .ok positions => findPositionQty positions actual_code

/-- The shared `try: api.place_order(...) except ...` block of
`place_entry_order` (trading.py:247-263) and `place_exit_order`
(trading.py:310-325): every exception is wrapped into `OrderError`. -/
def submit_order {τ : Type} (env : Env τ) (contract : Contract)
    (order : Order) : Except TradingErr τ :=
  match env.place_order contract order with
  | .ok r => .ok r
  | .error (.targetContractNotExist m) =>
      .error (.orderError ("Target contract not exist: " ++ m))
  | .error (.timeoutError m) =>
      .error (.orderError ("Order timeout: " ++ m))
  | .error (.accountNotSign m) =>
      .error (.orderError ("Account error: " ++ m))
  | .error (.accountNotProvide m) =>
      .error (.orderError ("Account error: " ++ m))
  | .error e =>
      .error (.orderError ("Unexpected error when placing order: " ++ e.msg))

/-- The fixed text each `except` clause of the submission block puts in
front of the underlying cause when raising `OrderError`
(trading.py:247-263, 310-325). -/
def order_error_cause_tag : PyErr → String
  | .targetContractNotExist _ => "Target contract not exist: "
  | .timeoutError _ => "Order timeout: "
  | .accountNotSign _ => "Account error: "
  | .accountNotProvide _ => "Account error: "
  | .valueError _ => "Unexpected error when placing order: "
  | .otherExc _ => "Unexpected error when placing order: "

/-- Embeds `place_entry_order` (trading.py:211-263). `Action.Buy` is a long
entry, `Action.Sell` a short entry (main.py:195-202). Returns the result
of `api.place_order` on success. -/
def place_entry_order {τ : Type} (env : Env τ) (symbol : String)
    (quantity : Int) (action : Action) : Except TradingErr τ :=
  match get_contract_from_symbol env.contracts symbol with
  | .error (.valueError m) =>
      .error (.orderError ("Contract not found: " ++ m))
  | .error e => .error (.uncaught e)
  | .ok contract =>
    match get_current_position env contract with
    | .error (.accountNotSign m) =>
        .error (.orderError ("Account error: " ++ m))
    | .error (.accountNotProvide m) =>
        .error (.orderError ("Account error: " ++ m))
    | .error e => .error (.uncaught e)
    | .ok pos =>
      let current_position := pos.getD 0
      let quantity :=
        if action = Action.Buy ∧ current_position < 0 then
          quantity - current_position
        else if action = Action.Sell ∧ current_position > 0 then
          quantity + current_position
        else quantity
      submit_order env contract (mkOrder action quantity)

/-- Embeds `place_exit_order` (trading.py:266-325). `Action.Buy` means "exit a
long position", `Action.Sell` "exit a short position" (main.py:203-210).
Returns `none` ("no action") when there is no position to exit. -/
def place_exit_order {τ : Type} (env : Env τ) (symbol : String)
    (position_direction : Action) : Except TradingErr (Option τ) :=
  match get_contract_from_symbol env.contracts symbol with
  | .error (.valueError m) =>
      .error (.orderError ("Contract not found: " ++ m))
  | .error e => .error (.uncaught e)
  | .ok contract =>
    match get_current_position env contract with
    | .error (.accountNotSign m) =>
        .error (.orderError ("Account error: " ++ m))
    | .error (.accountNotProvide m) =>
        .error (.orderError ("Account error: " ++ m))
    | .error e => .error (.uncaught e)
    | .ok pos =>
      let current_position := pos.getD 0
      if position_direction = Action.Buy ∧ current_position > 0 then
        (submit_order env contract (mkOrder Action.Sell current_position)).map some
      else if position_direction = Action.Sell ∧ current_position < 0 then
        (submit_order env contract (mkOrder Action.Buy (-current_position))).map some
      else
        .ok none

/-- One deal (fill) reported by the exchange in `trade.status.deals`. -/
structure Deal where
  seq : String
  price : ℚ
  quantity : Int
  ts : Int
deriving DecidableEq, Repr

/-- The `trade.status` object after `api.update_status`
(trading.py:361-377): status string, diagnostic fields, official
quantities, and the raw deal list. -/
structure OrderStatusObj where
  status : String
  status_code : String
  msg : String
  order_quantity : Int
  deal_quantity : Int
  cancel_quantity : Int
  deals : List Deal
deriving DecidableEq, Repr

/-- The `trade.order` object (trading.py:351-352, 394-397). -/
structure OrderObj where
  id : String
  seqno : String
  ordno : String
  quantity : Int
deriving DecidableEq, Repr

/-- The refreshed trade object read back after `api.update_status`. -/
structure TradeState where
  status : OrderStatusObj
  order : OrderObj
deriving DecidableEq, Repr

/-- The dict returned by `check_order_status` (trading.py:347-412);
fields absent from a branch keep their Python-absent default. -/
structure StatusReport where
  status : String
  error : Option String := none
  status_code : String := ""
  msg : String := ""
  order_id : String := ""
  seqno : String := ""
  ordno : String := ""
  order_quantity : Int := 0
  deal_quantity : Int := 0
  cancel_quantity : Int := 0
  fill_avg_price : ℚ := 0
  deals : List Deal := []
deriving DecidableEq, Repr

/-- Computes `Σ(deal.price * deal.quantity)` with the Python guard
`sum(...) if deals else 0` (trading.py:380). -/
def total_value (deals : List Deal) : ℚ :=
  if deals = [] then 0
  else (deals.map (fun d => d.price * (d.quantity : ℚ))).sum

/-- Computes `Σ(deal.quantity)` with the Python guard
`sum(...) if deals else 0` (trading.py:381). -/
def total_qty (deals : List Deal) : Int :=
  if deals = [] then 0
  else (deals.map Deal.quantity).sum

/-- Computes `fill_avg_price = total_value / total_qty if total_qty > 0 else 0.0`
(trading.py:380-382). -/
def fill_avg_price (deals : List Deal) : ℚ :=
  if total_qty deals > 0 then total_value deals / ((total_qty deals : Int) : ℚ)
  else 0

/-- Embeds `check_order_status` (trading.py:328-416). The in-place
`api.update_status(trade=trade)` refresh is modelled by `update_status`,
mapping a trade handle to the refreshed trade object or the exception the
call raised. Always returns a report; never raises. -/
def check_order_status {η : Type} (update_status : η → Except PyErr TradeState)
    (trade : Option η) : StatusReport :=
  match trade with
  | none => { status := "no_trade", error := some "No trade object provided" }
  | some t =>
    match update_status t with
    | .error e => { status := "error", error := some e.msg }
    | .ok ts =>
      let status_obj := ts.status
      let order_obj := ts.order
      let deals := status_obj.deals
      { status := status_obj.status
        status_code := status_obj.status_code
        msg := status_obj.msg
        order_id := order_obj.id
        seqno := order_obj.seqno
        ordno := order_obj.ordno
        order_quantity :=
          if status_obj.order_quantity = 0 then order_obj.quantity
          else status_obj.order_quantity
        deal_quantity := status_obj.deal_quantity
        cancel_quantity := status_obj.cancel_quantity
        fill_avg_price := fill_avg_price deals
        deals := deals }

/-! Helper lemmas shared by the claim theorems. -/

/-- Once symbol lookup and position read succeed, `place_entry_order`
submits exactly one order whose quantity follows the reversal rule of
trading.py:229-235. -/
lemma place_entry_order_eq_submit {τ : Type} (env : Env τ) (symbol : String)
    (q : Int) (a : Action) (ct : Contract) (pos : Option Int)
    (hct : get_contract_from_symbol env.contracts symbol = Except.ok ct)
    (hpos : get_current_position env ct = Except.ok pos) :
    place_entry_order env symbol q a =
      submit_order env ct (mkOrder a
        (if a = Action.Buy ∧ pos.getD 0 < 0 then q - pos.getD 0
         else if a = Action.Sell ∧ pos.getD 0 > 0 then q + pos.getD 0
         else q)) := by
  simp only [place_entry_order, hct, hpos]

/-- The entry quantity computed by trading.py:229-235 equals the
requested quantity, increased by the absolute opposite position when the
entry reverses it. -/
lemma entry_quantity_eq (q p : Int) (a : Action) :
    (if a = Action.Buy ∧ p < 0 then q - p
     else if a = Action.Sell ∧ p > 0 then q + p
     else q)
    = (if (a = Action.Buy ∧ p < 0) ∨ (a = Action.Sell ∧ 0 < p)
       then q + |p| else q) := by
  cases a with
  | Buy =>
    by_cases h : p < 0
    · have habs : |p| = -p := abs_of_neg h
      simp [h, habs]
      omega
    · simp [h]
  | Sell =>
    by_cases h : 0 < p
    · have habs : |p| = p := abs_of_pos h
      simp [h, habs, (by omega : ¬ p < 0)]
    · simp [h, gt_iff_lt]

/-- Once symbol lookup and position read succeed, `place_exit_order` with
a long position and direction Buy submits a Sell of the whole position
(trading.py:283-293). -/
lemma place_exit_order_closes_long {τ : Type} (env : Env τ) (symbol : String)
    (ct : Contract) (pos : Option Int)
    (hct : get_contract_from_symbol env.contracts symbol = Except.ok ct)
    (hpos : get_current_position env ct = Except.ok pos)
    (hlong : 0 < pos.getD 0) :
    place_exit_order env symbol Action.Buy =
      (submit_order env ct (mkOrder Action.Sell (pos.getD 0))).map some := by
  simp only [place_exit_order, hct, hpos]
  simp [hlong]

/-- Symmetric short-closing case (trading.py:295-305). -/
lemma place_exit_order_closes_short {τ : Type} (env : Env τ) (symbol : String)
    (ct : Contract) (pos : Option Int)
    (hct : get_contract_from_symbol env.contracts symbol = Except.ok ct)
    (hpos : get_current_position env ct = Except.ok pos)
    (hshort : pos.getD 0 < 0) :
    place_exit_order env symbol Action.Sell =
      (submit_order env ct (mkOrder Action.Buy (-(pos.getD 0)))).map some := by
  simp only [place_exit_order, hct, hpos]
  simp [hshort, asymm hshort]

/-- With no position in the exit direction the order branch is skipped
(trading.py:306-308). -/
lemma place_exit_order_no_action {τ : Type} (env : Env τ) (symbol : String)
    (d : Action) (ct : Contract) (pos : Option Int)
    (hct : get_contract_from_symbol env.contracts symbol = Except.ok ct)
    (hpos : get_current_position env ct = Except.ok pos)
    (hno : ¬ (d = Action.Buy ∧ 0 < pos.getD 0) ∧
           ¬ (d = Action.Sell ∧ pos.getD 0 < 0)) :
    place_exit_order env symbol d = Except.ok none := by
  simp only [place_exit_order, hct, hpos]
  simp [hno.1, hno.2]

/-! Claim theorems. -/

/-- C1. Entry sizing: with requested quantity `q > 0` and current net
position `p`, a long entry (`Action.Buy`) submits a Buy order and a short
entry (`Action.Sell`) a Sell order; the submitted quantity is `q` when
the existing position is not opposite to the entry direction, and
`q + |p|` when it is opposite (Buy with `p < 0`, Sell with `p > 0`), so
one order closes the opposite position and opens the new one. -/
theorem entry_sizing_correct (env : Env (Contract × Order)) (symbol : String)
    (q p : Int) (a : Action) (ct : Contract) (pos : Option Int)
    (hrec : env.place_order = fun c o => Except.ok (c, o))
    (hq : 0 < q)
    (hct : get_contract_from_symbol env.contracts symbol = Except.ok ct)
    (hpos : get_current_position env ct = Except.ok pos)
    (hp : pos.getD 0 = p) :
    place_entry_order env symbol q a =
      Except.ok (ct, mkOrder a
        (if (a = Action.Buy ∧ p < 0) ∨ (a = Action.Sell ∧ 0 < p)
         then q + |p| else q)) := by
  rw [place_entry_order_eq_submit env symbol q a ct pos hct hpos,
    hp, entry_quantity_eq]
  simp [submit_order, hrec]

/-- C1 witness: a short position of −3 and a long entry of 5 submit a
Buy order of 8. -/
theorem entry_sizing_correct_witness :
    place_entry_order
      (⟨[⟨"MXF202601", "MXFA6", "MXF", "202601"⟩],
        Except.ok [⟨"MXFA6", PosDirection.Sell, 3⟩],
        fun c o => Except.ok (c, o)⟩ : Env (Contract × Order))
      "MXF202601" 5 Action.Buy =
      Except.ok (⟨"MXF202601", "MXFA6", "MXF", "202601"⟩,
        mkOrder Action.Buy 8) := by
  have h := entry_sizing_correct
    (⟨[⟨"MXF202601", "MXFA6", "MXF", "202601"⟩],
      Except.ok [⟨"MXFA6", PosDirection.Sell, 3⟩],
      fun c o => Except.ok (c, o)⟩ : Env (Contract × Order))
    "MXF202601" 5 (-3) Action.Buy ⟨"MXF202601", "MXFA6", "MXF", "202601"⟩
    (some (-3)) rfl (by decide) (by decide) (by decide) (by decide)
  exact h.trans (by decide)

/-- C10. Implicit entry quantity lower bound: for every entry order call
with requested quantity `q > 0`, the order actually submitted has
quantity at least `q`, hence strictly positive. -/
theorem entry_quantity_lower_bound (env : Env (Contract × Order))
    (symbol : String) (q : Int) (a : Action) (ct : Contract)
    (pos : Option Int)
    (hrec : env.place_order = fun c o => Except.ok (c, o))
    (hq : 0 < q)
    (hct : get_contract_from_symbol env.contracts symbol = Except.ok ct)
    (hpos : get_current_position env ct = Except.ok pos) :
    ∃ o : Order, place_entry_order env symbol q a = Except.ok (ct, o) ∧
      q ≤ o.quantity ∧ 0 < o.quantity := by
  rw [place_entry_order_eq_submit env symbol q a ct pos hct hpos]
  refine ⟨mkOrder a
      (if a = Action.Buy ∧ pos.getD 0 < 0 then q - pos.getD 0
       else if a = Action.Sell ∧ pos.getD 0 > 0 then q + pos.getD 0 else q),
    ?_, ?_, ?_⟩
  · simp [submit_order, hrec]
  · simp only [mkOrder]
    split_ifs with h1 h2
    · obtain ⟨-, hside⟩ := h1; omega
    · obtain ⟨-, hside⟩ := h2; omega
    · omega
  · simp only [mkOrder]
    split_ifs with h1 h2
    · obtain ⟨-, hside⟩ := h1; omega
    · obtain ⟨-, hside⟩ := h2; omega
    · omega

/-- C10 witness: with no existing position, an entry of quantity 2
submits an order of quantity 2 ≥ 2 > 0. -/
theorem entry_quantity_lower_bound_witness :
    ∃ o : Order,
      place_entry_order
        (⟨[⟨"TXF202601", "TXFA6", "TXF", "202601"⟩], Except.ok [],
          fun c o => Except.ok (c, o)⟩ : Env (Contract × Order))
        "TXF202601" 2 Action.Buy =
        Except.ok (⟨"TXF202601", "TXFA6", "TXF", "202601"⟩, o) ∧
      (2 : Int) ≤ o.quantity ∧ 0 < o.quantity :=
  entry_quantity_lower_bound
    (⟨[⟨"TXF202601", "TXFA6", "TXF", "202601"⟩], Except.ok [],
      fun c o => Except.ok (c, o)⟩ : Env (Contract × Order))
    "TXF202601" 2 Action.Buy ⟨"TXF202601", "TXFA6", "TXF", "202601"⟩
    none rfl (by decide) (by decide) (by decide)

/-- C2. Exit sizing and no-action: a long exit (`Action.Buy`) submits a
Sell of exactly the position `p` only when `p > 0`; a short exit
(`Action.Sell`) submits a Buy of `|p|` only when `p < 0`; otherwise the
call returns `none` ("no action") for every environment, i.e. without
depending on the order-submission behaviour at all — so repeated exits
against a flat position always yield "no action". -/
theorem exit_sizing_and_no_action {τ : Type} (env : Env τ) (symbol : String)
    (p : Int) (ct : Contract) (pos : Option Int)
    (hct : get_contract_from_symbol env.contracts symbol = Except.ok ct)
    (hpos : get_current_position env ct = Except.ok pos)
    (hp : pos.getD 0 = p) :
    (0 < p → place_exit_order env symbol Action.Buy =
        (submit_order env ct (mkOrder Action.Sell p)).map some) ∧
    (p < 0 → place_exit_order env symbol Action.Sell =
        (submit_order env ct (mkOrder Action.Buy (-p))).map some) ∧
    (p ≤ 0 → place_exit_order env symbol Action.Buy = Except.ok none) ∧
    (0 ≤ p → place_exit_order env symbol Action.Sell = Except.ok none) := by
  subst hp
  refine ⟨?_, ?_, ?_, ?_⟩
  · intro h
    exact place_exit_order_closes_long env symbol ct pos hct hpos h
  · intro h
    exact place_exit_order_closes_short env symbol ct pos hct hpos h
  · intro h
    refine place_exit_order_no_action env symbol Action.Buy ct pos hct hpos
      ⟨?_, ?_⟩
    · intro hc
      exact absurd hc.2 (by omega)
    · intro hc
      exact absurd hc.1 (by decide)
  · intro h
    refine place_exit_order_no_action env symbol Action.Sell ct pos hct hpos
      ⟨?_, ?_⟩
    · intro hc
      exact absurd hc.1 (by decide)
    · intro hc
      exact absurd hc.2 (by omega)

/-- C2 witness: against a flat position a short exit yields "no action"
(and, the conclusion holding for an arbitrary recording environment,
no order is submitted). -/
theorem exit_sizing_and_no_action_witness :
    place_exit_order
      (⟨[⟨"MXF202601", "MXFA6", "MXF", "202601"⟩], Except.ok [],
        fun c o => Except.ok (c, o)⟩ : Env (Contract × Order))
      "MXF202601" Action.Sell = Except.ok none :=
  (exit_sizing_and_no_action
    (⟨[⟨"MXF202601", "MXFA6", "MXF", "202601"⟩], Except.ok [],
      fun c o => Except.ok (c, o)⟩ : Env (Contract × Order))
    "MXF202601" 0 ⟨"MXF202601", "MXFA6", "MXF", "202601"⟩ none
    (by decide) (by decide) (by decide)).2.2.2 (by decide)

/-- C3. Average fill price: for every deal list (with the exchange's
nonnegative fill quantities), `fill_avg_price` equals
`Σ(price × quantity) / Σ(quantity)`; on the empty deal list it is `0`
with no division error; one deal `{price 100, qty 2}` gives `100` and
deals `{100,2},{110,3}` give `106`. -/
theorem fill_avg_price_spec (deals : List Deal)
    (hnn : ∀ d ∈ deals, 0 ≤ d.quantity) :
    (fill_avg_price deals =
      (deals.map (fun d => d.price * (d.quantity : ℚ))).sum /
        (((deals.map Deal.quantity).sum : Int) : ℚ)) ∧
    (deals = [] → fill_avg_price deals = 0) ∧
    fill_avg_price [⟨"", 100, 2, 0⟩] = 100 ∧
    fill_avg_price [⟨"", 100, 2, 0⟩, ⟨"", 110, 3, 0⟩] = 106 := by
  refine ⟨?_, ?_, ?_, ?_⟩
  case refine_3 =>
    simp only [fill_avg_price, total_value, total_qty, List.cons_ne_nil,
      ite_false]
    norm_num
  case refine_4 =>
    simp only [fill_avg_price, total_value, total_qty, List.cons_ne_nil,
      ite_false]
    norm_num
  · by_cases hd : deals = []
    · subst hd
      simp [fill_avg_price, total_qty, total_value]
    · have htq : total_qty deals = (deals.map Deal.quantity).sum := by
        simp [total_qty, hd]
      have htv : total_value deals =
          (deals.map (fun d => d.price * (d.quantity : ℚ))).sum := by
        simp [total_value, hd]
      by_cases hpos : 0 < (deals.map Deal.quantity).sum
      · simp [fill_avg_price, htq, htv, hpos]
      · have hz : (deals.map Deal.quantity).sum = 0 := by
          refine le_antisymm (not_lt.mp hpos) (List.sum_nonneg ?_)
          intro x hx
          obtain ⟨d, hd2, rfl⟩ := List.mem_map.mp hx
          exact hnn d hd2
        rw [fill_avg_price, htq, htv, hz]
        simp
  · intro hd
    subst hd
    simp [fill_avg_price, total_qty]

/-- C3 witness: the two-deal example evaluates to 106 via the theorem. -/
theorem fill_avg_price_spec_witness :
    fill_avg_price [⟨"", 100, 2, 0⟩, ⟨"", 110, 3, 0⟩] = 106 :=
  (fill_avg_price_spec [⟨"", 100, 2, 0⟩, ⟨"", 110, 3, 0⟩]
    (by decide)).2.2.2

/-- A successful scan of the tradable set yields a member that is an
actual contract of the requested family and month. -/
lemma find_actual_contract_some (contracts : List Contract)
    (contract c : Contract)
    (h : find_actual_contract contracts contract = some c) :
    c ∈ contracts ∧ c.category = contract.category ∧
      c.delivery_month = contract.delivery_month ∧ c.code ≠ c.symbol := by
  induction contracts with
  | nil => simp [find_actual_contract] at h
  | cons a rest ih =>
    rw [find_actual_contract] at h
    split_ifs at h with hc
    · obtain rfl := Option.some.inj h
      exact ⟨List.mem_cons_self a rest, hc.1, hc.2.1, hc.2.2⟩
    · obtain ⟨hm, hrest⟩ := ih h
      exact ⟨List.mem_cons_of_mem a hm, hrest⟩

/-- If the tradable set holds a matching actual contract, the scan
succeeds. -/
lemma find_actual_contract_of_exists (contracts : List Contract)
    (contract : Contract)
    (h : ∃ c ∈ contracts, c.category = contract.category ∧
      c.delivery_month = contract.delivery_month ∧ c.code ≠ c.symbol) :
    ∃ c, find_actual_contract contracts contract = some c := by
  induction contracts with
  | nil => simp at h
  | cons a rest ih =>
    rw [find_actual_contract]
    split_ifs with hc
    · exact ⟨a, rfl⟩
    · apply ih
      obtain ⟨c, hm, hp⟩ := h
      rcases List.mem_cons.mp hm with rfl | hm2
      · exact absurd hp hc
      · exact ⟨c, hm2, hp⟩

/-- With no matching actual contract the scan fails. -/
lemma find_actual_contract_none (contracts : List Contract)
    (contract : Contract)
    (h : ∀ c ∈ contracts, ¬(c.category = contract.category ∧
      c.delivery_month = contract.delivery_month ∧ c.code ≠ c.symbol)) :
    find_actual_contract contracts contract = none := by
  induction contracts with
  | nil => rfl
  | cons a rest ih =>
    rw [find_actual_contract,
      if_neg (h a (List.mem_cons_self a rest))]
    exact ih fun c hm => h c (List.mem_cons_of_mem a hm)

/-- C4. Contract resolution round-trip: a contract whose code differs
from its symbol resolves to its own code; a rolling contract (code equal
to symbol) resolves to the code of an actual contract of the tradable
set sharing its category and delivery month when one exists, and falls
back to its own code when none does. -/
theorem resolve_actual_code_correct (contracts : List Contract)
    (contract : Contract) :
    (contract.code ≠ contract.symbol →
      resolve_actual_contract_code contracts contract = contract.code) ∧
    (contract.code = contract.symbol →
      (∃ c ∈ contracts, c.category = contract.category ∧
        c.delivery_month = contract.delivery_month ∧ c.code ≠ c.symbol) →
      ∃ c ∈ contracts, c.category = contract.category ∧
        c.delivery_month = contract.delivery_month ∧ c.code ≠ c.symbol ∧
        resolve_actual_contract_code contracts contract = c.code) ∧
    (contract.code = contract.symbol →
      (∀ c ∈ contracts, ¬(c.category = contract.category ∧
        c.delivery_month = contract.delivery_month ∧ c.code ≠ c.symbol)) →
      resolve_actual_contract_code contracts contract = contract.code) := by
  refine ⟨?_, ?_, ?_⟩
  · intro h
    rw [resolve_actual_contract_code, if_pos h]
  · intro heq hex
    obtain ⟨c, hfind⟩ := find_actual_contract_of_exists contracts contract hex
    obtain ⟨hm, h1, h2, h3⟩ := find_actual_contract_some contracts contract c hfind
    refine ⟨c, hm, h1, h2, h3, ?_⟩
    rw [resolve_actual_contract_code, if_neg (fun hne => hne heq), hfind]
  · intro heq hall
    rw [resolve_actual_contract_code, if_neg (fun hne => hne heq),
      find_actual_contract_none contracts contract hall]

/-- C4 witness: the rolling contract MXFR1 resolves to the actual
contract code MXFA6 of the same category and delivery month. -/
theorem resolve_actual_code_correct_witness :
    ∃ c ∈ [(⟨"MXF202601", "MXFA6", "MXF", "202601"⟩ : Contract)],
      c.category = "MXF" ∧ c.delivery_month = "202601" ∧
      c.code ≠ c.symbol ∧
      resolve_actual_contract_code
        [⟨"MXF202601", "MXFA6", "MXF", "202601"⟩]
        ⟨"MXFR1", "MXFR1", "MXF", "202601"⟩ = c.code :=
  (resolve_actual_code_correct [⟨"MXF202601", "MXFA6", "MXF", "202601"⟩]
    ⟨"MXFR1", "MXFR1", "MXF", "202601"⟩).2.1 rfl
    ⟨⟨"MXF202601", "MXFA6", "MXF", "202601"⟩, by decide, by decide⟩

/-- Entries whose code does not match the resolved code are skipped by
the position scan. -/
lemma findPositionQty_append (pre rest : List Position) (code : String)
    (h : ∀ p ∈ pre, p.code ≠ code) :
    findPositionQty (pre ++ rest) code = findPositionQty rest code := by
  induction pre with
  | nil => rfl
  | cons a pre ih =>
    rw [List.cons_append, findPositionQty,
      if_neg fun hc => h a (List.mem_cons_self a pre) hc.symm]
    exact ih fun p hm => h p (List.mem_cons_of_mem a hm)

/-- A scan over entries none of which match returns no position. -/
lemma findPositionQty_no_match (positions : List Position) (code : String)
    (h : ∀ p ∈ positions, p.code ≠ code) :
    findPositionQty positions code = Except.ok none := by
  have := findPositionQty_append positions [] code h
  simpa [findPositionQty] using this

/-- The first matching entry decides the scan outcome by its direction
flag alone. -/
lemma findPositionQty_first_match (p : Position) (rest : List Position)
    (code : String) (h : p.code = code) :
    findPositionQty (p :: rest) code =
      (match p.direction with
       | PosDirection.Buy => Except.ok (some p.quantity)
       | PosDirection.Sell => Except.ok (some (-p.quantity))
       | PosDirection.Other raw => Except.error (PyErr.valueError
           ("Position " ++ p.code ++ " has invalid direction: " ++ raw))) := by
  rw [findPositionQty, if_pos h.symm]

/-- Once the position list is available, `get_current_position` is the
scan of that list against the resolved code. -/
lemma get_current_position_eq_scan {τ : Type} (env : Env τ)
    (contract : Contract) (positions : List Position)
    (hps : env.list_positions = Except.ok positions) :
    get_current_position env contract =
      findPositionQty positions
        (resolve_actual_contract_code env.contracts contract) := by
  simp only [get_current_position, hps]

/-- C5. Position direction semantics: the position reader returns
`+quantity` when the (first) entry matching the resolved contract code
is flagged Buy, `-quantity` when it is flagged Sell, fails with the
`ValueError` ("invalid direction", the fatal InvalidState of the spec)
when it carries any other direction value, and returns `none` (absent,
treated as zero) when no entry's code equals the resolved code. -/
theorem position_direction_semantics {τ : Type} (env : Env τ)
    (contract : Contract) (positions : List Position)
    (hps : env.list_positions = Except.ok positions) :
    ((∀ p ∈ positions,
        p.code ≠ resolve_actual_contract_code env.contracts contract) →
      get_current_position env contract = Except.ok none) ∧
    (∀ pre p rest, positions = pre ++ p :: rest →
      (∀ q ∈ pre, q.code ≠ resolve_actual_contract_code env.contracts contract) →
      p.code = resolve_actual_contract_code env.contracts contract →
      (p.direction = PosDirection.Buy →
          get_current_position env contract = Except.ok (some p.quantity)) ∧
      (p.direction = PosDirection.Sell →
          get_current_position env contract = Except.ok (some (-p.quantity))) ∧
      (∀ raw, p.direction = PosDirection.Other raw →
          get_current_position env contract =
            Except.error (PyErr.valueError
              ("Position " ++ p.code ++ " has invalid direction: " ++ raw)))) := by
  rw [get_current_position_eq_scan env contract positions hps]
  constructor
  · exact findPositionQty_no_match positions _
  · intro pre p rest hsplit hpre hmatch
    subst hsplit
    rw [findPositionQty_append pre (p :: rest) _ hpre,
      findPositionQty_first_match p rest _ hmatch]
    refine ⟨?_, ?_, ?_⟩
    · intro hd
      rw [hd]
    · intro hd
      rw [hd]
    · intro raw hd
      rw [hd]

/-- C5 witness: a single Sell-flagged position of quantity 4 under the
resolved code reads back as −4. -/
theorem position_direction_semantics_witness :
    get_current_position
      (⟨[⟨"MXF202601", "MXFA6", "MXF", "202601"⟩],
        Except.ok [⟨"MXFA6", PosDirection.Sell, 4⟩],
        fun _ _ => Except.ok ()⟩ : Env Unit)
      ⟨"MXF202601", "MXFA6", "MXF", "202601"⟩ = Except.ok (some (-4)) :=
  ((position_direction_semantics
    (⟨[⟨"MXF202601", "MXFA6", "MXF", "202601"⟩],
      Except.ok [⟨"MXFA6", PosDirection.Sell, 4⟩],
      fun _ _ => Except.ok ()⟩ : Env Unit)
    ⟨"MXF202601", "MXFA6", "MXF", "202601"⟩
    [⟨"MXFA6", PosDirection.Sell, 4⟩] rfl).2
    [] ⟨"MXFA6", PosDirection.Sell, 4⟩ [] rfl (by decide) (by decide)).2.1 rfl

/-- C9. Implicit first-match, no aggregation: when two or more entries
match the resolved contract code, the position reader's outcome is
decided entirely by the first matching entry in list order — the
conclusion does not depend on the later matching entries, and no
summation into a net quantity happens. -/
theorem position_first_match_no_aggregation {τ : Type} (env : Env τ)
    (contract : Contract) (pre : List Position) (p1 : Position)
    (rest : List Position)
    (hps : env.list_positions = Except.ok (pre ++ p1 :: rest))
    (hpre : ∀ q ∈ pre, q.code ≠ resolve_actual_contract_code env.contracts contract)
    (h1 : p1.code = resolve_actual_contract_code env.contracts contract)
    (hlater : ∃ p2 ∈ rest,
      p2.code = resolve_actual_contract_code env.contracts contract) :
    get_current_position env contract =
      (match p1.direction with
       | PosDirection.Buy => Except.ok (some p1.quantity)
       | PosDirection.Sell => Except.ok (some (-p1.quantity))
       | PosDirection.Other raw => Except.error (PyErr.valueError
           ("Position " ++ p1.code ++ " has invalid direction: " ++ raw))) := by
  rw [get_current_position_eq_scan env contract (pre ++ p1 :: rest) hps,
    findPositionQty_append pre (p1 :: rest) _ hpre,
    findPositionQty_first_match p1 rest _ h1]

/-- C9 witness: with two Buy entries of quantities 2 and 5 under the
same code, the reader returns 2 (the first), not the sum 7. -/
theorem position_first_match_no_aggregation_witness :
    get_current_position
      (⟨[⟨"MXF202601", "MXFA6", "MXF", "202601"⟩],
        Except.ok [⟨"MXFA6", PosDirection.Buy, 2⟩,
          ⟨"MXFA6", PosDirection.Buy, 5⟩],
        fun _ _ => Except.ok ()⟩ : Env Unit)
      ⟨"MXF202601", "MXFA6", "MXF", "202601"⟩ = Except.ok (some 2) :=
  position_first_match_no_aggregation
    (⟨[⟨"MXF202601", "MXFA6", "MXF", "202601"⟩],
      Except.ok [⟨"MXFA6", PosDirection.Buy, 2⟩,
        ⟨"MXFA6", PosDirection.Buy, 5⟩],
      fun _ _ => Except.ok ()⟩ : Env Unit)
    ⟨"MXF202601", "MXFA6", "MXF", "202601"⟩
    [] ⟨"MXFA6", PosDirection.Buy, 2⟩ [⟨"MXFA6", PosDirection.Buy, 5⟩]
    rfl (by decide) (by decide)
    ⟨⟨"MXFA6", PosDirection.Buy, 5⟩, by decide, by decide⟩

/-- C6. Reconciliation never propagates hard errors: `check_order_status`
is a total function into reports (it cannot raise by construction); an
absent order handle yields the `"no_trade"` report — for every possible
refresh behaviour, so the exchange is never contacted — and an exception
during the refresh call becomes the `"error"` report carrying the
exception's message. -/
theorem reconcile_never_propagates {η : Type}
    (update_status : η → Except PyErr TradeState) :
    (check_order_status update_status none =
      { status := "no_trade", error := some "No trade object provided" }) ∧
    (∀ t e, update_status t = Except.error e →
      check_order_status update_status (some t) =
        { status := "error", error := some e.msg }) := by
  constructor
  · rfl
  · intro t e h
    simp only [check_order_status, h]

/-- C6 witness: a refresh that always fails with an unexpected exception
yields the `"error"` report; the absent handle yields `"no_trade"`. -/
theorem reconcile_never_propagates_witness :
    check_order_status (fun _ : Unit => Except.error (PyErr.otherExc "boom"))
      (some ()) = { status := "error", error := some "boom" } :=
  (reconcile_never_propagates
    (fun _ : Unit => Except.error (PyErr.otherExc "boom"))).2
    () (PyErr.otherExc "boom") rfl

/-- Every exception from `api.place_order` is wrapped by the submission
block into an `OrderError` whose message is the branch's fixed tag
followed by the underlying cause. -/
lemma submit_order_wraps {τ : Type} (env : Env τ) (contract : Contract)
    (order : Order) (e : PyErr)
    (h : env.place_order contract order = Except.error e) :
    submit_order env contract order =
      Except.error (TradingErr.orderError
        (order_error_cause_tag e ++ e.msg)) := by
  cases e <;> simp [submit_order, h, order_error_cause_tag, PyErr.msg]

/-- C7. Submission failure classification: whatever exception
`api.place_order` raises — contract vanished, timeout, account not
signed/provisioned, or any other unexpected rejection — both the entry
and the exit path surface it as the single `OrderError` kind whose
message preserves the underlying cause, and no other exception kind
escapes that submission boundary. -/
theorem submission_failure_classified {τ : Type} (env : Env τ)
    (symbol : String) (ct : Contract) (pos : Option Int) (e : PyErr)
    (hct : get_contract_from_symbol env.contracts symbol = Except.ok ct)
    (hpos : get_current_position env ct = Except.ok pos)
    (hfail : ∀ c o, env.place_order c o = Except.error e) :
    (∀ q a, place_entry_order env symbol q a =
        Except.error (TradingErr.orderError
          (order_error_cause_tag e ++ e.msg))) ∧
    (0 < pos.getD 0 → place_exit_order env symbol Action.Buy =
        Except.error (TradingErr.orderError
          (order_error_cause_tag e ++ e.msg))) ∧
    (pos.getD 0 < 0 → place_exit_order env symbol Action.Sell =
        Except.error (TradingErr.orderError
          (order_error_cause_tag e ++ e.msg))) := by
  refine ⟨?_, ?_, ?_⟩
  · intro q a
    rw [place_entry_order_eq_submit env symbol q a ct pos hct hpos,
      submit_order_wraps env ct _ e (hfail ct _)]
  · intro h
    rw [place_exit_order_closes_long env symbol ct pos hct hpos h,
      submit_order_wraps env ct _ e (hfail ct _)]
    rfl
  · intro h
    rw [place_exit_order_closes_short env symbol ct pos hct hpos h,
      submit_order_wraps env ct _ e (hfail ct _)]
    rfl

/-- C7 witness: a submission timeout surfaces from the entry path as
`OrderError` with the cause preserved. -/
theorem submission_failure_classified_witness :
    place_entry_order
      (⟨[⟨"MXF202601", "MXFA6", "MXF", "202601"⟩], Except.ok [],
        fun _ _ => Except.error (PyErr.timeoutError "deadline")⟩ : Env Unit)
      "MXF202601" 1 Action.Buy =
      Except.error (TradingErr.orderError "Order timeout: deadline") :=
  (submission_failure_classified
    (⟨[⟨"MXF202601", "MXFA6", "MXF", "202601"⟩], Except.ok [],
      fun _ _ => Except.error (PyErr.timeoutError "deadline")⟩ : Env Unit)
    "MXF202601" ⟨"MXF202601", "MXFA6", "MXF", "202601"⟩ none
    (PyErr.timeoutError "deadline") (by decide) (by decide)
    (fun _ _ => rfl)).1 1 Action.Buy

/-- Whatever `get_contract_from_symbol` returns successfully is a member
of the tradable set whose symbol matches exactly. -/
lemma get_contract_from_symbol_sound (contracts : List Contract)
    (symbol : String) (c : Contract)
    (h : get_contract_from_symbol contracts symbol = Except.ok c) :
    c ∈ contracts ∧ c.symbol = symbol := by
  induction contracts with
  | nil => simp [get_contract_from_symbol] at h
  | cons a rest ih =>
    rw [get_contract_from_symbol] at h
    split_ifs at h with hc
    · obtain rfl := Except.ok.inj h
      exact ⟨List.mem_cons_self a rest, hc⟩
    · obtain ⟨hm, hsym⟩ := ih h
      exact ⟨List.mem_cons_of_mem a hm, hsym⟩

/-- Contracts before the first symbol match are skipped. -/
lemma get_contract_from_symbol_append (pre rest : List Contract)
    (symbol : String) (h : ∀ c ∈ pre, c.symbol ≠ symbol) :
    get_contract_from_symbol (pre ++ rest) symbol =
      get_contract_from_symbol rest symbol := by
  induction pre with
  | nil => rfl
  | cons a pre ih =>
    rw [List.cons_append, get_contract_from_symbol,
      if_neg (h a (List.mem_cons_self a pre))]
    exact ih fun c hm => h c (List.mem_cons_of_mem a hm)

/-- C8. Unknown symbol lookup: a symbol absent from the tradable set
fails with the `ValueError` ("not found", the spec's NotFound) and a
successful lookup returns the first exactly matching contract — always a
member of the tradable set, never a partially constructed one. -/
theorem resolve_symbol_spec (contracts : List Contract) (symbol : String) :
    ((∀ c ∈ contracts, c.symbol ≠ symbol) →
      get_contract_from_symbol contracts symbol =
        Except.error (PyErr.valueError
          ("Contract " ++ symbol ++ " not found in supported futures"))) ∧
    (∀ pre c rest, contracts = pre ++ c :: rest →
      (∀ c2 ∈ pre, c2.symbol ≠ symbol) → c.symbol = symbol →
      get_contract_from_symbol contracts symbol = Except.ok c) ∧
    (∀ c, get_contract_from_symbol contracts symbol = Except.ok c →
      c ∈ contracts ∧ c.symbol = symbol) := by
  refine ⟨?_, ?_, ?_⟩
  · intro h
    have := get_contract_from_symbol_append contracts [] symbol h
    simpa [get_contract_from_symbol] using this
  · intro pre c rest hsplit hpre hc
    subst hsplit
    rw [get_contract_from_symbol_append pre (c :: rest) symbol hpre,
      get_contract_from_symbol, if_pos hc]
  · exact get_contract_from_symbol_sound contracts symbol

/-- C8 witness: looking up a symbol absent from the tradable set fails
with the not-found error. -/
theorem resolve_symbol_spec_witness :
    get_contract_from_symbol [⟨"MXF202601", "MXFA6", "MXF", "202601"⟩]
      "DOES_NOT_EXIST" =
      Except.error (PyErr.valueError
        ("Contract " ++ "DOES_NOT_EXIST" ++
          " not found in supported futures")) :=
  (resolve_symbol_spec [⟨"MXF202601", "MXFA6", "MXF", "202601"⟩]
    "DOES_NOT_EXIST").1 (by decide)

end Shioaji
